import Mathlib

/-!
Verification of the chat-lecture frontend (`src/frontend/static/js/app.js`)
and of the spec's core retrieval/ingestion components against a shallow
embedding in Lean.

The frontend handlers are embedded as pure functions from their inputs
(application state, user input, the outcome of the network call they make)
to the ordered list of observable UI effects they produce.  The backend
core (status state machine, embedding index, retrieval engine, chunker,
history store) is not present in the repository source, so those
components are modelled from the spec, as marked on each definition.
-/

namespace ChatLecture

/-! ## Data model shared by the frontend embedding -/

/-- A timestamp reference attached to a bot message
(`{start_time, end_time}` objects in `timestamp_references`). -/
structure TimestampRef where
  start_time : ℚ
  end_time : ℚ
deriving Repr, DecidableEq

/-- A lecture as the frontend sees it: the JSON object rendered by
`displayLectures` and passed to `selectLecture`.  `transcript_status`
is a plain string, as in the JS. -/
structure Lecture where
  id : ℕ
  title : String
  description : String
  transcript_status : String
deriving Repr, DecidableEq

/-- One persisted chat turn as returned by `/api/chat/history/{id}`:
fields `user_message`, `bot_response`, `timestamp_references`. -/
structure ChatTurn where
  user_message : String
  bot_response : String
  timestamp_references : List TimestampRef
deriving Repr, DecidableEq

/-- Observable effects of the frontend handlers, in the order the code
performs them: DOM appends to `#chat-messages`, toasts, network requests,
and the chat-interface/typing-indicator manipulations. -/
inductive UiEvent where
  | userMessage (text : String)
  | botMessage (text : String) (refs : List TimestampRef)
  | toast (message : String) (kind : String)
  | chatRequest (lectureId : ℕ) (message : String)
  | summarizeRequest (lectureId : ℕ)
  | historyRequest (lectureId : ℕ)
  | typingShown
  | typingRemoved
deriving Repr, DecidableEq

/-! ## `selectLecture` (app.js lines 257–275) -/

/-- Result of `selectLecture(lecture)`: the new module-level
`currentLecture`, whether the chat interface was displayed, and the UI
events it emitted (history load request or "not ready" toast). -/
structure SelectResult where
  currentLecture : Option Lecture
  chatInterfaceShown : Bool
  events : List UiEvent
deriving Repr, DecidableEq

/-- Embedding of `selectLecture`: it assigns `currentLecture = lecture`
unconditionally, then shows the chat interface and loads history only
when `lecture.transcript_status === 'completed'`, otherwise it shows a
warning toast. -/
def selectLecture (lecture : Lecture) : SelectResult :=
  if lecture.transcript_status = "completed" then
    { currentLecture := some lecture
      chatInterfaceShown := true
      events := [.historyRequest lecture.id] }
  else
    { currentLecture := some lecture
      chatInterfaceShown := false
      events := [.toast
        "Lecture transcript is not ready yet. Please wait for processing to complete."
        "warning"] }

/-! ## `handleChatMessage` (app.js lines 312–359) -/

/-- JavaScript `String.prototype.trim` whitespace (the characters the
embedding needs: space, tab, LF, VT, FF, CR). -/
def isJsWhitespace (c : Char) : Bool :=
  c = ' ' || c = '\t' || c = '\n' || c = '\x0b' || c = '\x0c' || c = '\r'

/-- Embedding of JavaScript `s.trim()`: strip whitespace from both ends. -/
def jsTrim (s : String) : String :=
  ⟨((s.data.dropWhile isJsWhitespace).reverse.dropWhile isJsWhitespace).reverse⟩

/-- Outcome of the `POST /api/chat/ask` fetch as the handler observes it:
a 2xx response with `{response, timestamp_references}`, a non-2xx
response whose JSON may carry a `detail` string, or a thrown error
(network failure / invalid JSON). -/
inductive AskOutcome where
  | ok (response : String) (timestamp_references : List TimestampRef)
  | httpError (detail : Option String)
  | threw
deriving Repr, DecidableEq

/-- Embedding of `handleChatMessage`: guard on `currentLecture`, trim the
input, bail out silently on an empty message, append the user message,
show the typing indicator, send the request, then either append the bot
message (success) or remove the indicator and toast an error. -/
def handleChatMessage (currentLecture : Option Lecture) (raw : String)
    (outcome : AskOutcome) : List UiEvent :=
  match currentLecture with
  | none => [.toast "Please select a lecture first" "warning"]
  | some lec =>
    let message := jsTrim raw
    if message = "" then []
    else
      [.userMessage message, .typingShown, .chatRequest lec.id message] ++
      match outcome with
      | .ok response refs => [.typingRemoved, .botMessage response refs]
      | .httpError detail =>
          [.typingRemoved, .toast (detail.getD "Failed to get response") "error"]
      | .threw => [.typingRemoved, .toast "Failed to send message" "error"]

/-! ## `handleSummarize` (app.js lines 455–485) -/

/-- Outcome of the `POST /api/chat/summarize/{id}` fetch. -/
inductive SummarizeOutcome where
  | ok (summary : String)
  | httpError (detail : Option String)
  | threw
deriving Repr, DecidableEq

/-- Embedding of `handleSummarize`: guard on `currentLecture`, send the
request, then either append the canned user message and the summary as a
bot message, or toast an error. -/
def handleSummarize (currentLecture : Option Lecture)
    (outcome : SummarizeOutcome) : List UiEvent :=
  match currentLecture with
  | none => [.toast "Please select a lecture first" "warning"]
  | some lec =>
    [.summarizeRequest lec.id] ++
    match outcome with
    | .ok summary =>
        [.userMessage "Please provide a summary of this lecture.",
         .botMessage summary []]
    | .httpError detail =>
        [.toast (detail.getD "Failed to generate summary") "error"]
    | .threw => [.toast "Failed to generate summary" "error"]

/-! ## `loadChatHistory` rendering (app.js lines 432–453) -/

/-- Embedding of the success path of `loadChatHistory`: the fetched
`history` array is reversed (`history.reverse()`) and each element
rendered as a user message followed by a bot message. -/
def renderHistory (history : List ChatTurn) : List UiEvent :=
  (history.reverse).flatMap fun chat =>
    [.userMessage chat.user_message,
     .botMessage chat.bot_response chat.timestamp_references]

/-- The (user message, bot response) pairs displayed by a list of UI
events, in display order. -/
def displayedPairs : List UiEvent → List (String × String)
  | .userMessage u :: .botMessage b _ :: rest => (u, b) :: displayedPairs rest
  | _ :: rest => displayedPairs rest
  | [] => []

/-! ## `formatTimestamp` (app.js lines 488–493) -/

/-- A JS number argument as `formatTimestamp` can receive it: `none`
stands for the falsy non-numbers (`null`, `undefined`, `NaN`), and
`some q` for a finite number. -/
def JsSeconds := Option ℚ

/-- Embedding of JavaScript `String.prototype.padStart(n, c)`. -/
def padStart (n : ℕ) (c : Char) (s : String) : String :=
  (⟨List.replicate (n - s.length) c⟩ : String) ++ s

/-- JavaScript truncation toward zero, as used by the `%` operator. -/
def jsTrunc (q : ℚ) : ℤ :=
  if 0 ≤ q then ⌊q⌋ else ⌈q⌉

/-- JavaScript `a % n` on finite numbers: remainder with the sign of the
dividend, `a - n * trunc(a / n)`. -/
def jsMod (a n : ℚ) : ℚ :=
  a - n * (jsTrunc (a / n) : ℚ)

/-- Embedding of `formatTimestamp`: falsy input (including `0`) yields
`"00:00"`; otherwise minutes are `Math.floor(seconds / 60)` and seconds
`Math.floor(seconds % 60)`, each rendered and left-padded to length 2. -/
def formatTimestamp (seconds : JsSeconds) : String :=
  match seconds with
  | none => "00:00"
  | some q =>
    if q = 0 then "00:00"
    else
      padStart 2 '0' (toString ⌊q / 60⌋) ++ ":" ++
        padStart 2 '0' (toString ⌊jsMod q 60⌋)

/-! ## Spec-modelled core: status state machine

The ingestion/retrieval core is not part of the repository source; the
definitions below are modelled from the spec. -/

/-- Modelled from the spec: `TranscriptStatus` is one of `pending`,
`processing`, `completed`, `failed` (§3); the backend owning this type is
missing from the source. -/
inductive TranscriptStatus where
  | pending
  | processing
  | completed
  | failed
deriving Repr, DecidableEq, Fintype

/-- Modelled from the spec: the operations that may move a lecture's
status — start of ingestion, successful completion, failure, and the
explicit reset performed when a `failed` lecture is re-ingested (§4.1). -/
inductive StatusOp where
  | startProcessing
  | finishOk
  | finishFail
  | resetForReingest
deriving Repr, DecidableEq, Fintype

/-- Modelled from the spec: the guarded transition function of the status
state machine (§3, §9); every transition not listed is rejected
(`none`), in particular `completed → pending`. The missing backend's
`IngestionPipeline` owns these transitions. -/
def stepStatus : TranscriptStatus → StatusOp → Option TranscriptStatus
  | .pending, .startProcessing => some .processing
  | .processing, .finishOk => some .completed
  | .processing, .finishFail => some .failed
  | .failed, .resetForReingest => some .pending
  | _, _ => none

/-- Position of a status in the forward order
`pending → processing → {completed | failed}`. -/
def statusRank : TranscriptStatus → ℕ
  | .pending => 0
  | .processing => 1
  | .completed => 2
  | .failed => 2

/-- Modelled from the spec: the error taxonomy of §7. -/
inductive CoreErr where
  | NotReady
  | ConcurrentIngestion
  | CapabilityUnavailable
  | EmptyInput
  | RequestAborted
deriving Repr, DecidableEq

/-! ## Spec-modelled core: embedding index and retrieval -/

/-- Modelled from the spec: a `Chunk` (§3) together with its
`EmbeddingIndex` entry — owning lecture, stable sequence index, text,
covered time range, and embedding vector. The backend owning this data
is missing from the source. -/
structure Chunk where
  lecture_id : ℕ
  seq_index : ℕ
  text : String
  start_time : ℚ
  end_time : ℚ
  vector : List ℚ
deriving Repr, DecidableEq

/-- Dot product of two vectors (zip-with-multiply, then sum). -/
def dot (x y : List ℚ) : ℚ := (List.zipWith (· * ·) x y).sum

/-- Squared norm of a vector. -/
def normSq (x : List ℚ) : ℚ := dot x x

/-- Signed squared cosine similarity `(x·y)·|x·y| / (|x|²·|y|²)`: a
rational-valued score that is strictly monotone in the cosine similarity
for nonzero vectors, so ranking by it is ranking by cosine similarity
(the spec's ranking, §4.3) while staying computable over ℚ. -/
def simScore (x y : List ℚ) : ℚ :=
  (dot x y * |dot x y|) / (normSq x * normSq y)

/-- Modelled from the spec: the ranking used by `EmbeddingIndex.search`
(§4.3) — higher cosine similarity first, ties broken by lower chunk
sequence index. -/
def ranksBefore (q : List ℚ) (a b : Chunk) : Bool :=
  decide (simScore b.vector q < simScore a.vector q) ||
    (decide (simScore a.vector q = simScore b.vector q) &&
      decide (a.seq_index ≤ b.seq_index))

/-- Insert an element into a list ordered by the comparator `r`. -/
def insertRanked (r : α → α → Bool) (a : α) : List α → List α
  | [] => [a]
  | b :: l => if r a b then a :: b :: l else b :: insertRanked r a l

/-- Insertion sort by the comparator `r`. -/
def sortRanked (r : α → α → Bool) : List α → List α
  | [] => []
  | a :: l => insertRanked r a (sortRanked r l)

/-- Modelled from the spec: `EmbeddingIndex.search(lecture_id,
query_vector, k)` (§4.3) — restrict the index to the given lecture's
entries, rank by similarity with the stable tie-break, return the top
`k`. -/
def searchIndex (idx : List Chunk) (lecture_id : ℕ) (q : List ℚ)
    (k : ℕ) : List Chunk :=
  (sortRanked (ranksBefore q)
    (idx.filter fun c => c.lecture_id == lecture_id)).take k

/-- Length of the overlap of two chunks' `[start_time, end_time]`
intervals. -/
def overlapLen (a b : Chunk) : ℚ :=
  max 0 (min a.end_time b.end_time - max a.start_time b.start_time)

/-- Duration of the shorter of two chunks' intervals. -/
def shorterLen (a b : Chunk) : ℚ :=
  min (a.end_time - a.start_time) (b.end_time - b.start_time)

/-- Two chunks overlap by more than 50% of the shorter one's duration. -/
def tooOverlapping (a b : Chunk) : Bool :=
  decide (shorterLen a b < 2 * overlapLen a b)

/-- Worker for span deduplication: walk the similarity-ranked candidates,
keeping a candidate only if no already-kept (hence higher-ranked) span
overlaps it by more than 50% of the shorter duration. `kept` holds the
kept spans newest-first. -/
def dedupKeep (kept : List Chunk) : List Chunk → List Chunk
  | [] => kept.reverse
  | c :: rest =>
    if kept.any fun d => tooOverlapping d c then dedupKeep kept rest
    else dedupKeep (c :: kept) rest

/-- Modelled from the spec: the overlap deduplication of
`RetrievalEngine.retrieve` (§4.4) — when two chunks overlap by more than
half the shorter interval, only the higher-similarity (earlier-ranked)
one is kept. -/
def dedupSpans (candidates : List Chunk) : List Chunk :=
  dedupKeep [] candidates

/-- Modelled from the spec: `RetrievalEngine.retrieve` (§4.4) — requires
status `completed` (else fails fast with `NotReady`), fails with
`CapabilityUnavailable` when embedding the query fails (`qEmbed = none`),
otherwise searches the index and deduplicates overlapping spans. -/
def retrieveCore (status : TranscriptStatus) (idx : List Chunk)
    (lecture_id : ℕ) (qEmbed : Option (List ℚ)) (k : ℕ) :
    Except CoreErr (List Chunk) :=
  if status = .completed then
    match qEmbed with
    | none => .error .CapabilityUnavailable
    | some qv => .ok (dedupSpans (searchIndex idx lecture_id qv k))
  else .error .NotReady

/-! ## Spec-modelled core: answer synthesis, history, summarize -/

/-- Modelled from the spec: `AnswerSynthesizer.answer` (§4.5) restricted
to what the claims need — requires status `completed`; `gen` is the
outcome of the generation capability (`none` = failed or timed out);
on success appends exactly one `(question, answer, cited spans)` turn to
the history and returns the new history with the response; on failure
returns an error and the history is untouched. -/
def answerCore (status : TranscriptStatus)
    (gen : Option (String × List TimestampRef)) (question : String)
    (history : List ChatTurn) : Except CoreErr (List ChatTurn × String) :=
  if status = .completed then
    match gen with
    | none => .error .CapabilityUnavailable
    | some (response, spans) =>
        .ok (history ++ [⟨question, response, spans⟩], response)
  else .error .NotReady

/-- The persisted history after an `answerCore` call: the new history on
success, the old history unchanged on failure. -/
def historyAfterAnswer (status : TranscriptStatus)
    (gen : Option (String × List TimestampRef)) (question : String)
    (history : List ChatTurn) : List ChatTurn :=
  match answerCore status gen question history with
  | .ok (h, _) => h
  | .error _ => history

/-- Modelled from the spec: `getHistory(lecture_id)` (§6) returns the
lecture's append-only turn log ordered oldest first; the store itself
keeps turns in creation order. -/
def getHistory (store : List ChatTurn) : List ChatTurn := store

/-- Modelled from the spec: `SummaryReducer.summarize` (§4.6) restricted
to its status gate — requires status `completed`, else fails fast with
`NotReady`; `gen` abstracts the map-reduce outcome. -/
def summarizeCore (status : TranscriptStatus) (gen : Option String) :
    Except CoreErr String :=
  if status = .completed then
    match gen with
    | none => .error .CapabilityUnavailable
    | some s => .ok s
  else .error .NotReady

/-! ## Spec-modelled core: chunker -/

/-- A transcript utterance `(text, start_seconds, end_seconds)` (§6). -/
structure Utterance where
  text : String
  start_seconds : ℚ
  end_seconds : ℚ
deriving Repr, DecidableEq

/-- Chunker configuration: character budget and overlap (§4.2). -/
structure ChunkerConfig where
  budget : ℕ
  overlap : ℕ
deriving Repr, DecidableEq

/-- A draft chunk produced by the chunker (§4.2): stable sequence index,
concatenated text, and the time range of its first and last utterance. -/
structure ChunkDraft where
  seq_index : ℕ
  text : String
  start_time : ℚ
  end_time : ℚ
deriving Repr, DecidableEq

/-- Total character length of a list of utterances. -/
def utterancesLen (us : List Utterance) : ℕ :=
  (us.map fun u => u.text.length).sum

/-- Seed of the next chunk: taken from the newest-first buffer, the
most recent utterances totalling at least `overlap` characters (all of
them if the buffer is shorter). Returned newest-first. -/
def overlapSeed (overlap : ℕ) : List Utterance → List Utterance
  | [] => []
  | u :: rest =>
    if overlap ≤ u.text.length then [u]
    else u :: overlapSeed (overlap - u.text.length) rest

/-- Accumulator of the chunking fold: finished chunks in order (each a
forward-ordered utterance list), the current buffer newest-first, and
the buffer's character length. -/
structure ChunkState where
  finished : List (List Utterance)
  buf : List Utterance
  bufLen : ℕ
deriving Repr, DecidableEq

/-- Modelled from the spec: one step of the chunker (§4.2). An utterance
is assigned whole to the chunk where it starts: if adding it to a
nonempty buffer would exceed the budget, the buffer is closed as a chunk
and a new buffer starts with the configured overlap's worth of trailing
utterances plus the new utterance. -/
def chunkStep (cfg : ChunkerConfig) (st : ChunkState) (u : Utterance) :
    ChunkState :=
  if st.buf ≠ [] ∧ cfg.budget < st.bufLen + u.text.length then
    let seed := overlapSeed cfg.overlap st.buf
    { finished := st.finished ++ [st.buf.reverse]
      buf := u :: seed
      bufLen := utterancesLen (u :: seed) }
  else
    { finished := st.finished
      buf := u :: st.buf
      bufLen := st.bufLen + u.text.length }

/-- Build a draft from a forward-ordered utterance list: concatenated
text, `start_time` of the first utterance, `end_time` of the last. -/
def mkDraft (i : ℕ) (us : List Utterance) : ChunkDraft :=
  { seq_index := i
    text := String.join (us.map fun u => u.text)
    start_time := ((us.head?).map fun u => u.start_seconds).getD 0
    end_time := ((us.getLast?).map fun u => u.end_seconds).getD 0 }

/-- Modelled from the spec: `Chunker.chunk(transcript)` (§4.2) — fold the
utterances through `chunkStep`, flush the final buffer, and number the
chunks. Degenerate input (empty transcript, one oversized utterance)
yields exactly one chunk with all available text. -/
def chunkTranscript (cfg : ChunkerConfig) (transcript : List Utterance) :
    List ChunkDraft :=
  let st := transcript.foldl (chunkStep cfg) ⟨[], [], 0⟩
  let pieces := st.finished ++ [st.buf.reverse]
  pieces.enum.map fun p => mkDraft p.1 p.2

/-- The `(start_time, end_time)` boundary list of a chunk sequence. -/
def boundaries (cs : List ChunkDraft) : List (ℚ × ℚ) :=
  cs.map fun c => (c.start_time, c.end_time)

/-- The (user message, bot response) pair of a chat turn. -/
def pairOf (t : ChatTurn) : String × String :=
  (t.user_message, t.bot_response)

/-! ## Concrete data used by the witnesses -/

/-- A lecture whose transcript is still processing. -/
def procLecture : Lecture :=
  { id := 7, title := "Loops", description := "", transcript_status := "processing" }

/-- A chunk of lecture 1, used as concrete index content. -/
def chunkDemoA : Chunk :=
  { lecture_id := 1, seq_index := 0, text := "a"
    start_time := 0, end_time := 10, vector := [1, 0] }

/-- The spec's end-to-end example transcript (§8). -/
def demoTranscript : List Utterance :=
  [⟨"Intro to loops", 0, 10⟩, ⟨"A for-loop repeats", 10, 25⟩,
   ⟨"A while-loop checks a condition first", 25, 40⟩]

/-! ## Claim C1 -/

/-- C1: selecting a lecture opens the chat interface and loads chat
history exactly when `transcript_status = "completed"`; a non-ready
lecture instead gets an immediate "not ready" toast, and (spec-modelled
backend) answer/retrieve/summarize on a non-`completed` lecture fail
fast with `NotReady`. -/
theorem selectLecture_gates_chat_on_completed (lecture : Lecture) :
    ((selectLecture lecture).chatInterfaceShown = true ↔
      lecture.transcript_status = "completed") ∧
    (UiEvent.historyRequest lecture.id ∈ (selectLecture lecture).events ↔
      lecture.transcript_status = "completed") ∧
    (lecture.transcript_status ≠ "completed" →
      (selectLecture lecture).events =
        [.toast
          "Lecture transcript is not ready yet. Please wait for processing to complete."
          "warning"]) ∧
    (∀ (st : TranscriptStatus) gen q hist, st ≠ .completed →
      answerCore st gen q hist = .error .NotReady) ∧
    (∀ (st : TranscriptStatus) idx lid qe k, st ≠ .completed →
      retrieveCore st idx lid qe k = .error .NotReady) ∧
    (∀ (st : TranscriptStatus) gen, st ≠ .completed →
      summarizeCore st gen = .error .NotReady) := by
  refine ⟨?_, ?_, ?_, ?_, ?_, ?_⟩
  · by_cases h : lecture.transcript_status = "completed" <;>
      simp [selectLecture, h]
  · by_cases h : lecture.transcript_status = "completed" <;>
      simp [selectLecture, h]
  · intro h
    simp [selectLecture, h]
  · intro st gen q hist h
    simp [answerCore, h]
  · intro st idx lid qe k h
    simp [retrieveCore, h]
  · intro st gen h
    simp [summarizeCore, h]

/-- Witness for C1 at a `processing` lecture and `processing`/`pending`/
`failed` backend statuses. -/
theorem selectLecture_gates_chat_on_completed_witness :
    ((selectLecture procLecture).chatInterfaceShown = true ↔
      procLecture.transcript_status = "completed") ∧
    answerCore .processing none "q" [] = .error .NotReady ∧
    retrieveCore .pending [] 1 none 5 = .error .NotReady ∧
    summarizeCore .failed none = .error .NotReady :=
  ⟨(selectLecture_gates_chat_on_completed procLecture).1,
   (selectLecture_gates_chat_on_completed procLecture).2.2.2.1
     .processing none "q" [] (by decide),
   (selectLecture_gates_chat_on_completed procLecture).2.2.2.2.1
     .pending [] 1 none 5 (by decide),
   (selectLecture_gates_chat_on_completed procLecture).2.2.2.2.2
     .failed none (by decide)⟩

/-! ## Claim C2 -/

/-- C2: when the generation call fails nothing is appended to the
persisted conversation — (spec-modelled backend) a failed `answerCore`
leaves the history unchanged and a turn is appended exactly on success;
(frontend) `handleChatMessage` adds a bot message to the conversation
only when the `/api/chat/ask` call succeeds, never on an error response
or a thrown fetch. -/
theorem generation_failure_appends_no_turn :
    (∀ (st : TranscriptStatus) q hist,
      historyAfterAnswer st none q hist = hist) ∧
    (∀ (st : TranscriptStatus) gen q hist e,
      answerCore st gen q hist = .error e →
      historyAfterAnswer st gen q hist = hist) ∧
    (∀ q hist response spans,
      answerCore .completed (some (response, spans)) q hist =
        .ok (hist ++ [⟨q, response, spans⟩], response)) ∧
    (∀ cl raw d t r,
      UiEvent.botMessage t r ∉ handleChatMessage cl raw (.httpError d)) ∧
    (∀ cl raw t r,
      UiEvent.botMessage t r ∉ handleChatMessage cl raw .threw) ∧
    (∀ lec raw response refs, jsTrim raw ≠ "" →
      UiEvent.botMessage response refs ∈
        handleChatMessage (some lec) raw (.ok response refs)) := by
  refine ⟨?_, ?_, ?_, ?_, ?_, ?_⟩
  · intro st q hist
    cases st <;> simp [historyAfterAnswer, answerCore]
  · intro st gen q hist e h
    simp [historyAfterAnswer, h]
  · intro q hist response spans
    simp [answerCore]
  · intro cl raw d t r
    cases cl <;> simp [handleChatMessage]
  · intro cl raw t r
    cases cl <;> simp [handleChatMessage]
  · intro lec raw response refs h
    simp [handleChatMessage, h]

/-- Witness for C2: a failed generation call leaves a concrete history
unchanged, and a successful fetch appends the bot message for a concrete
input. -/
theorem generation_failure_appends_no_turn_witness :
    historyAfterAnswer .completed none "q" [⟨"q0", "a0", []⟩] =
      [⟨"q0", "a0", []⟩] ∧
    UiEvent.botMessage "a1" [] ∉
      handleChatMessage (some procLecture) "hi" (.httpError none) ∧
    UiEvent.botMessage "a1" [] ∈
      handleChatMessage (some procLecture) "hi" (.ok "a1" []) :=
  ⟨generation_failure_appends_no_turn.1 .completed "q" [⟨"q0", "a0", []⟩],
   generation_failure_appends_no_turn.2.2.2.1 (some procLecture) "hi" none "a1" [],
   generation_failure_appends_no_turn.2.2.2.2.2 procLecture "hi" "a1" []
     (by decide)⟩

/-! ## Claim C8 -/

/-- C8: a chat submission whose message is empty or whitespace-only
after trimming is a graceful no-op — `handleChatMessage` sends no
request, appends no user or bot message, raises no error toast, and,
when a lecture is selected, produces no effect at all. -/
theorem empty_message_is_noop (cl : Option Lecture) (raw : String)
    (outcome : AskOutcome) (h : jsTrim raw = "") :
    (∀ lid m, UiEvent.chatRequest lid m ∉ handleChatMessage cl raw outcome) ∧
    (∀ t, UiEvent.userMessage t ∉ handleChatMessage cl raw outcome) ∧
    (∀ t r, UiEvent.botMessage t r ∉ handleChatMessage cl raw outcome) ∧
    (∀ m, UiEvent.toast m "error" ∉ handleChatMessage cl raw outcome) ∧
    (∀ lec, cl = some lec → handleChatMessage cl raw outcome = []) := by
  cases cl with
  | none =>
    refine ⟨?_, ?_, ?_, ?_, ?_⟩ <;> simp [handleChatMessage]
  | some lec =>
    refine ⟨?_, ?_, ?_, ?_, ?_⟩ <;> simp [handleChatMessage, h]

/-- Witness for C8 at a whitespace-only message: the handler's effect
list is empty. -/
theorem empty_message_is_noop_witness :
    jsTrim "   " = "" ∧
    handleChatMessage (some procLecture) "   " .threw = [] :=
  ⟨by decide,
   (empty_message_is_noop (some procLecture) "   " .threw (by decide)).2.2.2.2
     procLecture rfl⟩

/-! ## Claim C10 -/

/-- C10: `selectLecture` sets `currentLecture` to the clicked lecture
unconditionally, even when its `transcript_status` is not `"completed"`;
consequently the "Please select a lecture first" guards in
`handleChatMessage` and `handleSummarize` pass for that lecture and both
handlers issue their requests. -/
theorem selectLecture_sets_currentLecture_unconditionally
    (lecture : Lecture) (h : lecture.transcript_status ≠ "completed") :
    (selectLecture lecture).currentLecture = some lecture ∧
    (∀ raw outcome, jsTrim raw ≠ "" →
      UiEvent.chatRequest lecture.id (jsTrim raw) ∈
        handleChatMessage (some lecture) raw outcome) ∧
    (∀ outcome, UiEvent.summarizeRequest lecture.id ∈
      handleSummarize (some lecture) outcome) ∧
    (∀ raw outcome,
      UiEvent.toast "Please select a lecture first" "warning" ∉
        handleChatMessage (some lecture) raw outcome) ∧
    (∀ outcome,
      UiEvent.toast "Please select a lecture first" "warning" ∉
        handleSummarize (some lecture) outcome) := by
  refine ⟨?_, ?_, ?_, ?_, ?_⟩
  · simp [selectLecture, h]
  · intro raw outcome hraw
    simp [handleChatMessage, hraw]
  · intro outcome
    cases outcome <;> simp [handleSummarize]
  · intro raw outcome
    by_cases hraw : jsTrim raw = "" <;>
      cases outcome <;> simp [handleChatMessage, hraw]
  · intro outcome
    cases outcome <;> simp [handleSummarize]

/-- Witness for C10 at a `processing` lecture: `currentLecture` is set
and both handlers issue their requests. -/
theorem selectLecture_sets_currentLecture_unconditionally_witness :
    (selectLecture procLecture).currentLecture = some procLecture ∧
    UiEvent.chatRequest procLecture.id "hi" ∈
      handleChatMessage (some procLecture) "hi" .threw ∧
    UiEvent.summarizeRequest procLecture.id ∈
      handleSummarize (some procLecture) .threw :=
  ⟨(selectLecture_sets_currentLecture_unconditionally procLecture
      (by decide)).1,
   (selectLecture_sets_currentLecture_unconditionally procLecture
      (by decide)).2.1 "hi" .threw (by decide),
   (selectLecture_sets_currentLecture_unconditionally procLecture
      (by decide)).2.2.1 .threw⟩

/-! ## Claim C3 -/

theorem displayedPairs_cons_pair (u b : String) (r : List TimestampRef)
    (rest : List UiEvent) :
    displayedPairs (.userMessage u :: .botMessage b r :: rest) =
      (u, b) :: displayedPairs rest := rfl

theorem displayedPairs_renderTurns (l : List ChatTurn) :
    displayedPairs (l.flatMap fun chat =>
      [.userMessage chat.user_message,
       .botMessage chat.bot_response chat.timestamp_references]) =
      l.map pairOf := by
  induction l with
  | nil => rfl
  | cons c tl ih =>
    simp only [List.flatMap_cons, List.cons_append, List.nil_append,
      displayedPairs_cons_pair, List.map_cons, ih]
    rfl

/-- C3 counterexample: for the two-turn history `[(q1, a1), (q2, a2)]`
returned oldest first, the displayed pairs are not in the returned
order — the claim that rendering preserves the returned creation order
fails on `loadChatHistory`'s `history.reverse()`. -/
theorem loadChatHistory_order_counterexample :
    ¬ displayedPairs (renderHistory (getHistory
        [⟨"q1", "a1", []⟩, ⟨"q2", "a2", []⟩])) =
      [("q1", "a1"), ("q2", "a2")] := by decide

/-- C3 amended: `getHistory` (spec-modelled) returns the append-only
turn log oldest first, but `loadChatHistory` reverses the returned list
before rendering, so for a history of `n` turns the `i`-th displayed
(user message, bot response) pair is the `(n+1-i)`-th oldest turn — the
display order is the reverse of the returned order. -/
theorem loadChatHistory_displays_reverse_of_returned
    (store : List ChatTurn) :
    getHistory store = store ∧
    displayedPairs (renderHistory (getHistory store)) =
      (store.map pairOf).reverse := by
  refine ⟨rfl, ?_⟩
  show displayedPairs (renderHistory store) = (store.map pairOf).reverse
  rw [renderHistory, displayedPairs_renderTurns, List.map_reverse]

/-! ## Claim C4 -/

/-- C4: `TranscriptStatus` takes only the four values `pending`,
`processing`, `completed`, `failed`; every accepted transition other
than the explicit re-ingestion reset moves strictly forward in the order
`pending → processing → {completed | failed}`; the only backward move is
the explicit reset, which goes `failed → pending`; and no transition at
all leaves `completed` — in particular `completed → pending` is
rejected. -/
theorem transcriptStatus_monotone_forward :
    (∀ s : TranscriptStatus,
      s = .pending ∨ s = .processing ∨ s = .completed ∨ s = .failed) ∧
    (∀ (s s' : TranscriptStatus) (op : StatusOp),
      stepStatus s op = some s' → op ≠ .resetForReingest →
      statusRank s < statusRank s') ∧
    (∀ (s s' : TranscriptStatus) (op : StatusOp),
      stepStatus s op = some s' → statusRank s' ≤ statusRank s →
      op = .resetForReingest ∧ s = .failed ∧ s' = .pending) ∧
    (∀ op : StatusOp, stepStatus .completed op = none) := by
  refine ⟨by decide, by decide, by decide, by decide⟩

/-- Witness for C4: the `pending → processing` transition is accepted and
strictly forward, and the `completed → pending` transition is rejected. -/
theorem transcriptStatus_monotone_forward_witness :
    statusRank .pending < statusRank .processing ∧
    stepStatus .completed .resetForReingest = none :=
  ⟨transcriptStatus_monotone_forward.2.1 .pending .processing
      .startProcessing (by decide) (by decide),
   transcriptStatus_monotone_forward.2.2.2 .resetForReingest⟩

/-! ## Claim C9 -/

theorem padStart_two_length (s : String) :
    2 ≤ (padStart 2 '0' s).length := by
  rw [padStart, String.length_append]
  have h : ((⟨List.replicate (2 - s.length) '0'⟩ : String)).length =
      2 - s.length := by
    show (List.replicate (2 - s.length) '0').length = 2 - s.length
    exact List.length_replicate ..
  rw [h]
  omega

/-- C9: `formatTimestamp` is total and formats durations as zero-padded
MM:SS with no hours field — every falsy input (`0`, `null`, `undefined`,
`NaN`) yields `"00:00"`; every positive input yields
`⌊seconds / 60⌋` and `⌊seconds mod 60⌋` each left-padded to length at
least 2; the minutes value is at least 100 (three digits) from 6000
seconds up; and concretely 3661 formats as `"61:01"` and 6000 as
`"100:00"`, never as hours. -/
theorem formatTimestamp_mmss :
    formatTimestamp none = "00:00" ∧
    formatTimestamp (some 0) = "00:00" ∧
    (∀ s : String, 2 ≤ (padStart 2 '0' s).length) ∧
    (∀ q : ℚ, 0 < q →
      formatTimestamp (some q) =
        padStart 2 '0' (toString ⌊q / 60⌋) ++ ":" ++
          padStart 2 '0' (toString ⌊jsMod q 60⌋)) ∧
    (∀ q : ℚ, 6000 ≤ q → 100 ≤ ⌊q / 60⌋) ∧
    formatTimestamp (some 3661) = "61:01" ∧
    formatTimestamp (some 6000) = "100:00" := by
  refine ⟨rfl, rfl, padStart_two_length, ?_, ?_, ?_, ?_⟩
  · intro q hq
    simp [formatTimestamp, hq.ne']
  · intro q hq
    rw [Int.le_floor]
    push_cast
    linarith
  · have h1 : ⌊(3661 : ℚ) / 60⌋ = 61 := by norm_num
    have h2 : ⌊jsMod 3661 60⌋ = 1 := by norm_num [jsMod, jsTrunc]
    simp only [formatTimestamp, h1, h2,
      if_neg (by norm_num : ¬(3661 : ℚ) = 0)]
    decide
  · have h1 : ⌊(6000 : ℚ) / 60⌋ = 100 := by norm_num
    have h2 : ⌊jsMod 6000 60⌋ = 0 := by norm_num [jsMod, jsTrunc]
    simp only [formatTimestamp, h1, h2,
      if_neg (by norm_num : ¬(6000 : ℚ) = 0)]
    decide

/-- Witness for C9 at the positive inputs 3661 and 7200. -/
theorem formatTimestamp_mmss_witness :
    (0 < (3661 : ℚ) ∧
      formatTimestamp (some 3661) =
        padStart 2 '0' (toString ⌊(3661 : ℚ) / 60⌋) ++ ":" ++
          padStart 2 '0' (toString ⌊jsMod 3661 60⌋)) ∧
    ((6000 : ℚ) ≤ 7200 ∧ 100 ≤ ⌊(7200 : ℚ) / 60⌋) :=
  ⟨⟨by norm_num, formatTimestamp_mmss.2.2.2.1 3661 (by norm_num)⟩,
   ⟨by norm_num, formatTimestamp_mmss.2.2.2.2.1 7200 (by norm_num)⟩⟩

/-! ## Claim C5 -/

theorem mem_insertRanked {r : α → α → Bool} {x a : α} {l : List α} :
    a ∈ insertRanked r x l ↔ a = x ∨ a ∈ l := by
  induction l with
  | nil => simp [insertRanked]
  | cons b tl ih =>
    by_cases h : r x b = true
    · simp [insertRanked, h, ih]
    · simp [insertRanked, h, ih]
      tauto

theorem mem_sortRanked {r : α → α → Bool} {a : α} {l : List α} :
    a ∈ sortRanked r l ↔ a ∈ l := by
  induction l with
  | nil => simp [sortRanked]
  | cons b tl ih => simp [sortRanked, mem_insertRanked, ih]

theorem mem_searchIndex_lecture {idx : List Chunk} {lid : ℕ}
    {q : List ℚ} {k : ℕ} {c : Chunk} (hc : c ∈ searchIndex idx lid q k) :
    c.lecture_id = lid := by
  have h1 : c ∈ sortRanked (ranksBefore q)
      (idx.filter fun d => d.lecture_id == lid) :=
    List.take_subset k _ hc
  have h2 : c ∈ idx.filter fun d => d.lecture_id == lid :=
    mem_sortRanked.mp h1
  have h3 := (List.mem_filter.mp h2).2
  exact beq_iff_eq.mp h3

/-- C5: per-lecture isolation of `searchIndex` — for any two distinct
lectures `A` and `B`, whatever the index contents, query vector, and
`k`, every chunk returned by a search over lecture `A` belongs to `A`
and never to `B`. -/
theorem searchIndex_isolated (idx : List Chunk) (A B : ℕ) (q : List ℚ)
    (k : ℕ) (c : Chunk) (hAB : A ≠ B) (hc : c ∈ searchIndex idx A q k) :
    c.lecture_id = A ∧ c.lecture_id ≠ B := by
  have h := mem_searchIndex_lecture hc
  exact ⟨h, h ▸ hAB⟩

/-- Witness for C5 at a concrete one-chunk index and lectures 1 ≠ 2. -/
theorem searchIndex_isolated_witness :
    chunkDemoA.lecture_id = 1 ∧ chunkDemoA.lecture_id ≠ 2 :=
  searchIndex_isolated [chunkDemoA] 1 2 [1, 0] 5 chunkDemoA
    (by decide) (by decide)

/-! ## Claim C6 -/

theorem overlapLen_comm (a b : Chunk) : overlapLen a b = overlapLen b a := by
  rw [overlapLen, overlapLen, min_comm a.end_time b.end_time,
    max_comm a.start_time b.start_time]

theorem shorterLen_comm (a b : Chunk) : shorterLen a b = shorterLen b a := by
  rw [shorterLen, shorterLen, min_comm]

theorem noExcessOverlap_symm {a b : Chunk}
    (h : 2 * overlapLen a b ≤ shorterLen a b) :
    2 * overlapLen b a ≤ shorterLen b a := by
  rwa [overlapLen_comm b a, shorterLen_comm b a]

theorem not_tooOverlapping_iff {a b : Chunk} :
    tooOverlapping a b = false ↔ 2 * overlapLen a b ≤ shorterLen a b := by
  simp [tooOverlapping, not_lt]

theorem dedupKeep_pairwise (rest : List Chunk) :
    ∀ kept : List Chunk,
      kept.Pairwise (fun a b => 2 * overlapLen a b ≤ shorterLen a b) →
      (dedupKeep kept rest).Pairwise
        (fun a b => 2 * overlapLen a b ≤ shorterLen a b) := by
  induction rest with
  | nil =>
    intro kept hk
    show kept.reverse.Pairwise _
    rw [List.pairwise_reverse]
    exact hk.imp fun h => noExcessOverlap_symm h
  | cons c rest ih =>
    intro kept hk
    cases hany : kept.any fun d => tooOverlapping d c with
    | true =>
      simp only [dedupKeep, hany, if_true]
      exact ih kept hk
    | false =>
      simp only [dedupKeep, hany, if_false]
      apply ih
      refine List.Pairwise.cons ?_ hk
      intro d hd
      have hfalse : tooOverlapping d c = false := by
        have := List.any_eq_false.mp hany d hd
        simpa using this
      exact noExcessOverlap_symm (not_tooOverlapping_iff.mp hfalse)

theorem dedupKeep_sublist (rest : List Chunk) :
    ∀ kept : List Chunk, ∃ sub : List Chunk,
      dedupKeep kept rest = kept.reverse ++ sub ∧ sub.Sublist rest := by
  induction rest with
  | nil =>
    intro kept
    exact ⟨[], by simp [dedupKeep], List.Sublist.refl _⟩
  | cons c rest ih =>
    intro kept
    cases hany : kept.any fun d => tooOverlapping d c with
    | true =>
      obtain ⟨sub, heq, hsub⟩ := ih kept
      exact ⟨sub, by simp [dedupKeep, hany, heq], hsub.cons c⟩
    | false =>
      obtain ⟨sub, heq, hsub⟩ := ih (c :: kept)
      refine ⟨c :: sub, ?_, hsub.cons₂ c⟩
      simp only [dedupKeep, hany, if_false, heq, List.reverse_cons,
        List.append_assoc, List.singleton_append]
      simp

theorem dedupSpans_pairwise (l : List Chunk) :
    (dedupSpans l).Pairwise
      (fun a b => 2 * overlapLen a b ≤ shorterLen a b) :=
  dedupKeep_pairwise l [] List.Pairwise.nil

theorem dedupSpans_sublist (l : List Chunk) : (dedupSpans l).Sublist l := by
  obtain ⟨sub, heq, hsub⟩ := dedupKeep_sublist l []
  have h : dedupSpans l = sub := by simpa [dedupSpans] using heq
  rwa [h]

/-- C6: the span list returned by a successful `retrieveCore` never
contains two spans whose `[start_time, end_time]` intervals overlap by
more than 50% of the shorter span's duration (the pairwise relation is
symmetric, so this covers every ordered pair of distinct positions);
moreover the result is a sublist of the similarity-ranked candidates, so
of any two over-overlapping candidates only the higher-ranked
(higher-similarity, tie-broken) one survives. -/
theorem retrieve_no_overlapping_spans (status : TranscriptStatus)
    (idx : List Chunk) (lid : ℕ) (qEmbed : Option (List ℚ)) (k : ℕ)
    (spans : List Chunk)
    (h : retrieveCore status idx lid qEmbed k = .ok spans) :
    spans.Pairwise (fun a b => 2 * overlapLen a b ≤ shorterLen a b) ∧
    ∃ qv, qEmbed = some qv ∧ spans.Sublist (searchIndex idx lid qv k) := by
  unfold retrieveCore at h
  by_cases hst : status = .completed
  · rw [if_pos hst] at h
    cases qEmbed with
    | none => cases h
    | some qv =>
      simp only [Except.ok.injEq] at h
      subst h
      exact ⟨dedupSpans_pairwise _, qv, rfl, dedupSpans_sublist _⟩
  · rw [if_neg hst] at h
    cases h

/-- Witness for C6 at a concrete completed lecture with a one-chunk
index. -/
theorem retrieve_no_overlapping_spans_witness :
    ([chunkDemoA] : List Chunk).Pairwise
      (fun a b => 2 * overlapLen a b ≤ shorterLen a b) ∧
    ∃ qv, (some [1, 0] : Option (List ℚ)) = some qv ∧
      ([chunkDemoA] : List Chunk).Sublist (searchIndex [chunkDemoA] 1 qv 5) :=
  retrieve_no_overlapping_spans .completed [chunkDemoA] 1 (some [1, 0]) 5
    [chunkDemoA] rfl

/-! ## Claim C7 -/

/-- The chunker computes concretely: on the spec's example transcript
with a 20-character budget and 5-character overlap it produces three
chunks whose text and time ranges follow the utterances. -/
theorem chunkTranscript_demo_eval :
    chunkTranscript ⟨20, 5⟩ demoTranscript =
      [⟨0, "Intro to loops", 0, 10⟩,
       ⟨1, "Intro to loopsA for-loop repeats", 0, 25⟩,
       ⟨2, "A for-loop repeatsA while-loop checks a condition first", 10, 40⟩] ∧
    chunkTranscript ⟨20, 5⟩ [] = [⟨0, "", 0, 0⟩] := by
  constructor <;> decide

/-- C7: `chunkTranscript` is deterministic — it is a pure function of
the transcript and the budget/overlap configuration, so two runs on the
same transcript with the same configuration yield identical chunk
sequences, and in particular identical chunk boundaries on
re-ingestion. -/
theorem chunkTranscript_deterministic (cfgFirst cfgSecond : ChunkerConfig)
    (tFirst tSecond : List Utterance) (hcfg : cfgFirst = cfgSecond)
    (ht : tFirst = tSecond) :
    chunkTranscript cfgFirst tFirst = chunkTranscript cfgSecond tSecond ∧
    boundaries (chunkTranscript cfgFirst tFirst) =
      boundaries (chunkTranscript cfgSecond tSecond) := by
  subst hcfg
  subst ht
  exact ⟨rfl, rfl⟩

/-- Witness for C7 at the spec's example transcript: re-running the
chunker yields the identical chunk sequence and boundaries. -/
theorem chunkTranscript_deterministic_witness :
    chunkTranscript ⟨20, 5⟩ demoTranscript =
      chunkTranscript ⟨20, 5⟩ demoTranscript ∧
    boundaries (chunkTranscript ⟨20, 5⟩ demoTranscript) =
      boundaries (chunkTranscript ⟨20, 5⟩ demoTranscript) :=
  chunkTranscript_deterministic ⟨20, 5⟩ ⟨20, 5⟩ demoTranscript
    demoTranscript rfl rfl

end ChatLecture
